import Mathlib

/-!
Verification of the core of the jira-ai-issue-solver repository against its
natural-language specification.

Shallow embedding conventions used throughout this file:

* Go `time.Time` values are embedded as `Int` (seconds on an absolute axis).
  The Go zero value `time.Time{}` is embedded as `0`; instants before the Go
  zero value (Go supports year 0, which precedes the zero value, year 1)
  are negative integers.  `t1.After(t2)` is `t2 < t1`, `t1.Before(t2)` is
  `t1 < t2`, and `t.Add(-5*time.Minute)` is `t - 300`.
* Go `error` results are embedded as `Except String α`: `.error e` carries
  the formatted error message (format verbs elided where the wrapped value
  is opaque), `.ok v` the success value.
* Calls to external collaborators (HTTP, git, the Jira/GitHub REST clients,
  the AI process) are resolved through explicit environment records whose
  fields hold the outcome of each call; a call site also appends an effect
  constructor to a trace, so that theorems can speak about which external
  operations a code path performs.
* Go string primitives (`strings.HasPrefix`, `strings.TrimPrefix`,
  `strings.Split`, `strings.TrimSuffix`) are embedded as structurally
  recursive functions on `List Char`, so concrete instances evaluate
  inside the kernel.
-/

/-! ### Go string primitives -/

/-- `listHasPre pat l` is true when `pat` is an initial segment of `l`. -/
def listHasPre : List Char → List Char → Bool
  | [], _ => true
  | _ :: _, [] => false
  | a :: ps, b :: ss => a == b && listHasPre ps ss

/-- Go `strings.HasPrefix s p`. -/
def goHasPre (s p : String) : Bool :=
  listHasPre p.data s.data

/-- Go `strings.TrimPrefix s p`. -/
def goTrimPre (s p : String) : String :=
  if goHasPre s p then ⟨s.data.drop p.data.length⟩ else s

/-- Go `strings.HasSuffix s suf`. -/
def goHasSuf (s suf : String) : Bool :=
  listHasPre suf.data.reverse s.data.reverse

/-- Go `strings.TrimSuffix s suf`. -/
def goTrimSuf (s suf : String) : String :=
  if goHasSuf s suf then ⟨s.data.take (s.data.length - suf.data.length)⟩ else s

/-- Split a character list at every occurrence of `sep`; always returns at
least one (possibly empty) part. -/
def listSplit (sep : Char) : List Char → List (List Char)
  | [] => [[]]
  | c :: rest =>
    let r := listSplit sep rest
    if c == sep then [] :: r
    else
      match r with
      | h :: t => (c :: h) :: t
      | [] => [[c]]

/-- Go `strings.Split s "/"`. -/
def goSplitSlash (s : String) : List String :=
  (listSplit '/' s.data).map String.mk

/-! ### Credential cache (`services/github_app.go`)

`tokenCache` holds the installation token and its expiry.
`GetInstallationToken` / `refreshInstallationToken` are translated from
`src/services/github_app.go` lines 78-146.  The environment `RefreshEnv`
carries the outcome of each external step of the refresh: the JWT signing
(`GetAppToken`), the construction of the HTTP request, the HTTP round trip
(status code on success), and the JSON decode of the response body.  The
validity condition `Token != "" && now.Before(ExpiresAt.Add(-5*time.Minute))`
of lines 81 and 100 is written inline as `c.token ≠ "" ∧ now < c.expiresAt - 300`.
-/

structure TokenCache where
  token : String
  expiresAt : Int
deriving Repr, DecidableEq

structure RefreshEnv where
  appToken : Except String String
  newRequest : Except String Unit
  httpResponse : Except String Nat
  decodeBody : Except String (String × Int)

/-- Translation of `refreshInstallationToken` (github_app.go lines 94-146).
Returns the result together with the state of the cache after the call. -/
def refreshInstallationToken (c : TokenCache) (now : Int) (env : RefreshEnv) :
    Except String String × TokenCache :=
  if c.token ≠ "" ∧ now < c.expiresAt - 300 then
    (.ok c.token, c)
  else
    match env.appToken with
    | .error e => (.error ("failed to get app token: " ++ e), c)
    | .ok _ =>
      match env.newRequest with
      | .error e => (.error ("failed to create request: " ++ e), c)
      | .ok _ =>
        match env.httpResponse with
        | .error e => (.error ("failed to send request: " ++ e), c)
        | .ok status =>
          if status ≠ 201 ∧ status ≠ 200 then
            (.error "failed to get installation token", c)
          else
            match env.decodeBody with
            | .error e => (.error ("failed to decode response: " ++ e), c)
            | .ok (tok, exp) => (.ok tok, { token := tok, expiresAt := exp })

/-- Translation of `GetInstallationToken` (github_app.go lines 78-91). -/
def GetInstallationToken (c : TokenCache) (now : Int) (env : RefreshEnv) :
    Except String String × TokenCache :=
  if c.token ≠ "" ∧ now < c.expiresAt - 300 then
    (.ok c.token, c)
  else
    refreshInstallationToken c now env

/-- C1 counterexample input: empty cache, an exchange that succeeds but
reports an expiry equal to the current instant. -/
def c1Env : RefreshEnv :=
  { appToken := .ok "jwt"
    newRequest := .ok ()
    httpResponse := .ok 201
    decodeBody := .ok ("freshtok", 1000) }

/-- C1 counterexample: the claim as stated is false.  With an empty cache at
`now = 1000` and an exchange whose response reports expiry `1000`,
`GetInstallationToken` returns `("freshtok", nil)` although the cached
expiry associated with the token is not more than 5 minutes after the
current time (it is the current time itself): the slow path stores and
returns whatever expiry the exchange reported, without any buffer check. -/
theorem c1_counterexample :
    (GetInstallationToken ⟨"", 0⟩ 1000 c1Env).1 = .ok "freshtok" ∧
    (GetInstallationToken ⟨"", 0⟩ 1000 c1Env).2.expiresAt = 1000 ∧
    ¬ (1000 + 300 < (GetInstallationToken ⟨"", 0⟩ 1000 c1Env).2.expiresAt) :=
  ⟨rfl, rfl, by decide⟩

/-- C1 (amended): every token handed out by `GetInstallationToken` with a
nil error has more than 5 minutes of remaining validity, provided the
expiry reported by a fresh exchange is itself more than 5 minutes ahead of
the current time; on the cached fast path (and the double-checked path)
this holds unconditionally.  The post-state cache associates exactly the
returned token with that expiry. -/
theorem c1_token_validity_amended (c : TokenCache) (now : Int) (env : RefreshEnv)
    (hfresh : ∀ t e, env.decodeBody = .ok (t, e) → now + 300 < e)
    (tok : String) (hok : (GetInstallationToken c now env).1 = .ok tok) :
    now + 300 < (GetInstallationToken c now env).2.expiresAt ∧
    (GetInstallationToken c now env).2.token = tok := by
  unfold GetInstallationToken refreshInstallationToken at hok ⊢
  by_cases hv : c.token ≠ "" ∧ now < c.expiresAt - 300
  · rw [if_pos hv] at hok ⊢
    simp only [Except.ok.injEq] at hok
    have h2 := hv.2
    exact ⟨show now + 300 < c.expiresAt by omega, hok⟩
  · rw [if_neg hv] at hok ⊢
    rw [if_neg hv] at hok ⊢
    cases hat : env.appToken with
    | error e => simp [hat] at hok
    | ok a =>
      cases hnr : env.newRequest with
      | error e => simp [hat, hnr] at hok
      | ok u =>
        cases hhr : env.httpResponse with
        | error e => simp [hat, hnr, hhr] at hok
        | ok st =>
          by_cases hst : st ≠ 201 ∧ st ≠ 200
          · simp [hat, hnr, hhr, hst] at hok
          · cases hdb : env.decodeBody with
            | error e => simp [hat, hnr, hhr, hst, hdb] at hok
            | ok p =>
              obtain ⟨t, e⟩ := p
              simp only [hat, hnr, hhr, if_neg hst, hdb, Except.ok.injEq] at hok ⊢
              exact ⟨hfresh t e hdb, hok⟩

/-- C1 amended-theorem witness at a concrete input: empty cache, exchange
reporting an expiry one hour ahead. -/
theorem c1_token_validity_amended_witness :
    1000 + 300 <
      (GetInstallationToken ⟨"", 0⟩ 1000
        ⟨.ok "jwt", .ok (), .ok 201, .ok ("freshtok", 4600)⟩).2.expiresAt :=
  (c1_token_validity_amended ⟨"", 0⟩ 1000
    ⟨.ok "jwt", .ok (), .ok 201, .ok ("freshtok", 4600)⟩
    (by intro t e h; simp at h; omega) "freshtok" rfl).1

/-- The disjunction of the error cases named by claim C2: JWT signing
fails, the request cannot be built, the HTTP round trip fails, the status
is neither 201 nor 200, or the body does not decode. -/
def refreshStepFails (env : RefreshEnv) : Prop :=
  (∃ e, env.appToken = .error e) ∨
  (∃ e, env.newRequest = .error e) ∨
  (∃ e, env.httpResponse = .error e) ∨
  (∃ st, env.httpResponse = .ok st ∧ st ≠ 201 ∧ st ≠ 200) ∨
  (∃ e, env.decodeBody = .error e)

/-- C2 (confirmed): when a refresh is actually attempted (the double-checked
validity condition does not short-circuit) and any of the external steps
fails — JWT signing, the request build, the HTTP exchange, a non-2xx
status, or the response decode — `refreshInstallationToken` returns an
error and leaves the cached token value and cached expiry exactly as they
were before the call. -/
theorem c2_refresh_error_preserves_cache (c : TokenCache) (now : Int)
    (env : RefreshEnv) (hstale : ¬ (c.token ≠ "" ∧ now < c.expiresAt - 300))
    (hfail : refreshStepFails env) :
    (∃ e, (refreshInstallationToken c now env).1 = .error e) ∧
    (refreshInstallationToken c now env).2 = c := by
  unfold refreshInstallationToken
  rw [if_neg hstale]
  rcases hfail with ⟨e, he⟩ | ⟨e, he⟩ | ⟨e, he⟩ | ⟨st, hst, h1, h2⟩ | ⟨e, he⟩
  · simp [he]
  · cases hat : env.appToken with
    | error e2 => simp
    | ok a => simp [he]
  · cases hat : env.appToken with
    | error e2 => simp
    | ok a =>
      cases hnr : env.newRequest with
      | error e2 => simp
      | ok u => simp [he]
  · cases hat : env.appToken with
    | error e2 => simp
    | ok a =>
      cases hnr : env.newRequest with
      | error e2 => simp
      | ok u => simp [hst, h1, h2]
  · cases hat : env.appToken with
    | error e2 => simp
    | ok a =>
      cases hnr : env.newRequest with
      | error e2 => simp
      | ok u =>
        cases hhr : env.httpResponse with
        | error e2 => simp
        | ok st =>
          by_cases hst : st ≠ 201 ∧ st ≠ 200
          · simp [hst]
          · simp [hst, he]

/-- C2 witness at a concrete input: empty cache, failing HTTP round trip. -/
theorem c2_refresh_error_preserves_cache_witness :
    (∃ e, (refreshInstallationToken ⟨"", 0⟩ 1000
      ⟨.ok "jwt", .ok (), .error "conn reset", .error "no body"⟩).1 = .error e) ∧
    (refreshInstallationToken ⟨"", 0⟩ 1000
      ⟨.ok "jwt", .ok (), .error "conn reset", .error "no body"⟩).2 = ⟨"", 0⟩ :=
  c2_refresh_error_preserves_cache ⟨"", 0⟩ 1000
    ⟨.ok "jwt", .ok (), .error "conn reset", .error "no body"⟩ (by simp)
    (Or.inr (Or.inr (Or.inl ⟨"conn reset", rfl⟩)))

/-! ### Repository-URL parsing (`services/github.go` lines 659-684) -/

/-- Translation of `ExtractRepoInfo` (github.go lines 659-684).  Go
`strings.Split` on separator `"/"` is `goSplitSlash`; the `len(parts) < 2`
test is the wildcard match arm (a split always yields at least one part). -/
def ExtractRepoInfo (repoURL : String) : Except String (String × String) :=
  if goHasPre repoURL "git@github.com:" then
    match goSplitSlash (goTrimPre repoURL "git@github.com:") with
    | p0 :: p1 :: _ => .ok (p0, goTrimSuf p1 ".git")
    | _ => .error ("invalid GitHub SSH URL: " ++ repoURL)
  else if goHasPre repoURL "https://github.com/" then
    match goSplitSlash (goTrimPre repoURL "https://github.com/") with
    | p0 :: p1 :: _ => .ok (p0, goTrimSuf p1 ".git")
    | _ => .error ("invalid GitHub HTTPS URL: " ++ repoURL)
  else
    .error ("unsupported repository URL format: " ++ repoURL)

/-- C9 (confirmed): `ExtractRepoInfo` maps both the HTTPS and the SSH form
of the example URL to owner "example" and repo "repo", and any URL starting
with neither recognised prefix is rejected with the unsupported-format
error. -/
theorem c9_extract_repo_info :
    ExtractRepoInfo "https://github.com/example/repo.git" = .ok ("example", "repo") ∧
    ExtractRepoInfo "git@github.com:example/repo.git" = .ok ("example", "repo") ∧
    ∀ url : String, ¬ goHasPre url "git@github.com:" = true →
      ¬ goHasPre url "https://github.com/" = true →
      ExtractRepoInfo url = .error ("unsupported repository URL format: " ++ url) := by
  refine ⟨rfl, rfl, ?_⟩
  intro url h1 h2
  unfold ExtractRepoInfo
  simp [h1, h2]

/-- C9 witness: an ftp URL has neither prefix and is rejected. -/
theorem c9_extract_repo_info_witness :
    ExtractRepoInfo "ftp://example.com/x" =
      .error ("unsupported repository URL format: " ++ "ftp://example.com/x") :=
  c9_extract_repo_info.2.2 "ftp://example.com/x" (by decide) (by decide)

/-! ### Ticket pipeline (`TicketProcessor.ProcessTicket`)

Translated from the ticket-processor source file (`src/unnamed/part_000`,
package `services`).  `TpEnv` holds the outcome of every external call the
pipeline makes; results of the best-effort calls (status updates, field
update, PR-link comment, documentation generation) are ignored by the code,
so those calls appear in the trace only.  `CheckForkExists` is called once
before fork creation (`checkForkInitial`) and then inside the readiness
poll; the poll calls are numbered from 0 by `checkForkPoll`.
-/

structure JiraComment where
  authorName : String
  authorDisplayName : String
  body : String
deriving Repr, DecidableEq

structure JiraTicket where
  key : String
  summary : String
  description : String
  components : List String
  comments : Option (List JiraComment)
deriving Repr, DecidableEq

structure Config where
  componentToRepo : List (String × String)
  tempDir : String
  disableErrorComments : Bool
  jiraUsername : String
  statusInProgress : String
  statusInReview : String
  gitPullRequestFieldName : String
  botUsername : String
  targetBranch : String
deriving Repr, DecidableEq

inductive TpEffect where
  | getTicket : TpEffect
  | updateTicketStatus : String → TpEffect
  | checkForkExists : TpEffect
  | forkRepository : TpEffect
  | sleepSeconds : Nat → TpEffect
  | cloneRepository : String → String → TpEffect
  | switchToTargetBranch : TpEffect
  | createBranch : String → TpEffect
  | generateDocumentation : TpEffect
  | generateCode : String → TpEffect
  | commitChanges : String → TpEffect
  | pushChanges : String → TpEffect
  | createPullRequest : String → String → String → String → TpEffect
  | updateTicketField : String → String → TpEffect
  | addComment : String → TpEffect
deriving Repr, DecidableEq

structure TpEnv where
  getTicket : Except String JiraTicket
  checkForkInitial : Except String (Bool × String)
  checkForkPoll : Nat → Except String (Bool × String)
  forkRepo : Except String String
  clone : Except String Unit
  switchTarget : Except String Unit
  createBranch : Except String Unit
  generateCode : Except String String
  commit : Except String Unit
  push : Except String Unit
  createPR : Except String String

/-- Translation of `handleFailure`: posts the failure comment unless error
comments are disabled by configuration. -/
def handleFailureTrace (cfg : Config) (msg : String) : List TpEffect :=
  if cfg.disableErrorComments then []
  else [.addComment ("AI failed to process this ticket: " ++ msg)]

/-- A pipeline step: the external call is recorded in the trace; on error
the pipeline reports the failure and aborts, on success it continues. -/
def callStep {α : Type} (cfg : Config) (eff : TpEffect) (r : Except String α)
    (failPre : String) (k : α → Except String Unit × List TpEffect) :
    Except String Unit × List TpEffect :=
  match r with
  | .error e => (.error e, eff :: handleFailureTrace cfg (failPre ++ e))
  | .ok a =>
    let next := k a
    (next.1, eff :: next.2)

/-- A best-effort step: the call is recorded but its result is ignored. -/
def bestEffortStep (eff : TpEffect) (k : Except String Unit × List TpEffect) :
    Except String Unit × List TpEffect :=
  (k.1, eff :: k.2)

/-- Translation of the comment loop of `generatePrompt`: comments authored
by the configured Jira bot user are skipped. -/
def renderTicketComments (jiraUsername : String) : List JiraComment → String
  | [] => ""
  | c :: rest =>
    (if c.authorName == jiraUsername then ""
     else "- " ++ c.authorDisplayName ++ ": " ++ c.body ++ "\n")
    ++ renderTicketComments jiraUsername rest

/-- Translation of `generatePrompt`. -/
def generatePrompt (cfg : Config) (t : JiraTicket) : String :=
  "Please help me fix the issue described in Jira ticket " ++ t.key ++ ".\n\n"
  ++ "Summary: " ++ t.summary ++ "\n\n"
  ++ "Description: " ++ t.description ++ "\n\n"
  ++ (match t.comments with
      | none => ""
      | some cs => "Comments:\n" ++ renderTicketComments cfg.jiraUsername cs ++ "\n")
  ++ "Please analyze the codebase and implement the necessary changes to fix this issue. "
  ++ "Make sure to follow the existing code style and patterns in the codebase."

/-- Translation of the fork-readiness poll (`for i := 0; i < 10; i++`):
each iteration calls `CheckForkExists`; on error or on a "not yet" answer
it sleeps 5 seconds and continues; on "ready" it breaks immediately.
Returns the final `exists` flag, the final fork URL, and the trace of the
loop.  `i` is the absolute poll-call index, the second argument the number
of remaining iterations. -/
def forkReadyLoop (check : Nat → Except String (Bool × String)) :
    Nat → Nat → Bool → String → Bool × String × List TpEffect
  | _, 0, ex, url => (ex, url, [])
  | i, r + 1, _, _ =>
    match check i with
    | .error _ =>
      let rest := forkReadyLoop check (i + 1) r false ""
      (rest.1, rest.2.1, .checkForkExists :: .sleepSeconds 5 :: rest.2.2)
    | .ok (true, u) => (true, u, [.checkForkExists])
    | .ok (false, u) =>
      let rest := forkReadyLoop check (i + 1) r false u
      (rest.1, rest.2.1, .checkForkExists :: .sleepSeconds 5 :: rest.2.2)

/-- The tail of the pipeline once a ready fork URL is known: clone, switch
to the target branch, create the ticket branch, generate documentation
(best effort), generate code, commit, push, create the PR, then the three
best-effort post-processing steps. -/
def pipelineAfterFork (cfg : Config) (env : TpEnv) (t : JiraTicket)
    (owner repo forkURL : String) : Except String Unit × List TpEffect :=
  let repoDir := cfg.tempDir ++ "/" ++ t.key
  callStep cfg (.cloneRepository forkURL repoDir) env.clone "Failed to clone repository: " fun _ =>
  callStep cfg .switchToTargetBranch env.switchTarget "Failed to switch to target branch: " fun _ =>
  callStep cfg (.createBranch t.key) env.createBranch "Failed to create branch: " fun _ =>
  bestEffortStep .generateDocumentation <|
  callStep cfg (.generateCode (generatePrompt cfg t)) env.generateCode "Failed to generate code changes: " fun _ =>
  callStep cfg (.commitChanges (t.key ++ ": " ++ t.summary)) env.commit "Failed to commit changes: " fun _ =>
  callStep cfg (.pushChanges t.key) env.push "Failed to push changes: " fun _ =>
  callStep cfg
    (.createPullRequest (t.key ++ ": " ++ t.summary)
      ("This PR addresses the issue described in " ++ t.key ++ ".\n\n**Summary:** "
        ++ t.summary ++ "\n\n**Description:** " ++ t.description)
      (cfg.botUsername ++ ":" ++ t.key) cfg.targetBranch)
    env.createPR "Failed to create pull request: " fun prURL =>
  let tail :=
    bestEffortStep (.addComment ("AI has created a pull request to address this issue: " ++ prURL)) <|
    bestEffortStep (.updateTicketStatus cfg.statusInReview) (.ok (), [])
  if cfg.gitPullRequestFieldName ≠ "" then
    bestEffortStep (.updateTicketField cfg.gitPullRequestFieldName prURL) tail
  else tail

/-- The fork-ensure phase: if the fork already exists continue directly;
otherwise create it and poll readiness up to 10 times, aborting when it
never becomes ready. -/
def forkPhase (cfg : Config) (env : TpEnv) (t : JiraTicket)
    (owner repo : String) (res : Bool × String) : Except String Unit × List TpEffect :=
  if res.1 then pipelineAfterFork cfg env t owner repo res.2
  else
    match env.forkRepo with
    | .error e => (.error e, .forkRepository :: handleFailureTrace cfg ("Failed to create fork: " ++ e))
    | .ok u0 =>
      let L := forkReadyLoop env.checkForkPoll 0 10 false u0
      if L.1 then
        let next := pipelineAfterFork cfg env t owner repo L.2.1
        (next.1, .forkRepository :: (L.2.2 ++ next.2))
      else
        (.error "fork failed to become ready after multiple attempts",
          .forkRepository ::
            (L.2.2 ++ handleFailureTrace cfg "Fork failed to become ready after multiple attempts"))

/-- Translation of `ProcessTicket`: fetch the ticket, resolve the component
mapping, best-effort status update, parse the repository URL, ensure the
fork, then run the tail pipeline. -/
def ProcessTicket (cfg : Config) (env : TpEnv) : Except String Unit × List TpEffect :=
  callStep cfg .getTicket env.getTicket "Failed to get ticket details: " fun t =>
    match t.components with
    | [] =>
      (.error "no components found on ticket",
        handleFailureTrace cfg "No components found on ticket")
    | firstComponent :: _ =>
      match cfg.componentToRepo.lookup firstComponent with
      | none =>
        (.error ("no repository mapping found for component: " ++ firstComponent),
          handleFailureTrace cfg ("No repository mapping found for component: " ++ firstComponent))
      | some repoURL =>
        if repoURL = "" then
          (.error ("no repository mapping found for component: " ++ firstComponent),
            handleFailureTrace cfg ("No repository mapping found for component: " ++ firstComponent))
        else
          bestEffortStep (.updateTicketStatus cfg.statusInProgress) <|
          match ExtractRepoInfo repoURL with
          | .error e => (.error e, handleFailureTrace cfg ("Failed to extract repo info: " ++ e))
          | .ok (owner, repo) =>
            callStep cfg .checkForkExists env.checkForkInitial "Failed to check if fork exists: " fun res =>
              forkPhase cfg env t owner repo res

/-- Counts the `checkForkExists` effects of a trace. -/
def countForkChecks (tr : List TpEffect) : Nat :=
  tr.countP fun e => match e with | .checkForkExists => true | _ => false

/-- C8 (confirmed): for every ticket with an empty component list,
`ProcessTicket` reports the failure through the `handleFailure` path and
returns an error; the only external calls performed are the ticket fetch
and the failure-report comment — no fork-existence check, fork creation,
clone, branch creation, code generation, commit, push, or pull-request
creation. -/
theorem c8_no_components (cfg : Config) (env : TpEnv) (t : JiraTicket)
    (hok : env.getTicket = .ok t) (hempty : t.components = []) :
    (ProcessTicket cfg env).1 = .error "no components found on ticket" ∧
    (ProcessTicket cfg env).2 =
      .getTicket :: handleFailureTrace cfg "No components found on ticket" := by
  simp [ProcessTicket, callStep, hok, hempty]

/-- C8 witness input: a ticket with no components. -/
def ticketNoComp : JiraTicket :=
  { key := "TEST-9", summary := "S", description := "D", components := [], comments := none }

/-- C8 witness configuration. -/
def cfgW : Config :=
  { componentToRepo := [("comp", "https://github.com/example/repo.git")]
    tempDir := "/tmp/ai"
    disableErrorComments := false
    jiraUsername := "jira-bot"
    statusInProgress := "In Progress"
    statusInReview := "In Review"
    gitPullRequestFieldName := "Git Pull Request"
    botUsername := "test-bot"
    targetBranch := "main" }

/-- C8 witness environment: the ticket fetch succeeds with the
component-less ticket; no other call is ever reached. -/
def envC8 : TpEnv :=
  { getTicket := .ok ticketNoComp
    checkForkInitial := .ok (true, "u")
    checkForkPoll := fun _ => .ok (true, "u")
    forkRepo := .ok "u"
    clone := .ok ()
    switchTarget := .ok ()
    createBranch := .ok ()
    generateCode := .ok ""
    commit := .ok ()
    push := .ok ()
    createPR := .ok "https://github.com/example/repo/pull/1" }

/-- C8 witness: at the concrete component-less ticket the pipeline stops
after the fetch and the failure comment. -/
theorem c8_no_components_witness :
    (ProcessTicket cfgW envC8).1 = .error "no components found on ticket" ∧
    (ProcessTicket cfgW envC8).2 =
      .getTicket :: handleFailureTrace cfgW "No components found on ticket" :=
  c8_no_components cfgW envC8 ticketNoComp rfl rfl

/-- In the never-ready scenario the poll loop reports the fork absent and
its trace is `r` repetitions of a check followed by a 5-second sleep. -/
theorem forkReadyLoop_never (check : Nat → Except String (Bool × String))
    (h : ∀ j, ∃ u, check j = .ok (false, u)) :
    ∀ (r i : Nat) (url : String),
      (forkReadyLoop check i r false url).1 = false ∧
      (forkReadyLoop check i r false url).2.2 =
        List.flatten (List.replicate r [.checkForkExists, .sleepSeconds 5]) := by
  intro r
  induction r with
  | zero => intro i url; exact ⟨rfl, rfl⟩
  | succ n ih =>
    intro i url
    obtain ⟨u, hu⟩ := h i
    have := ih (i + 1) u
    simp only [forkReadyLoop, hu, List.replicate_succ, List.flatten_cons]
    exact ⟨this.1, by rw [this.2]; rfl⟩

/-- If the poll reports the fork absent for the first `N` calls and present
on call `N`, the loop succeeds provided `N` is below the iteration bound. -/
theorem forkReadyLoop_ready (check : Nat → Except String (Bool × String)) :
    ∀ (N i r : Nat) (url : String),
      (∀ j, j < N → ∃ u, check (i + j) = .ok (false, u)) →
      (∃ w, check (i + N) = .ok (true, w)) →
      N < r →
      (forkReadyLoop check i r false url).1 = true := by
  intro N
  induction N with
  | zero =>
    intro i r url _ hready hr
    obtain ⟨w, hw⟩ := hready
    obtain ⟨r', rfl⟩ : ∃ r', r = r' + 1 := ⟨r - 1, by omega⟩
    simp only [Nat.add_zero] at hw
    simp [forkReadyLoop, hw]
  | succ n ih =>
    intro i r url habs hready hr
    obtain ⟨u, hu⟩ := habs 0 (Nat.succ_pos n)
    obtain ⟨r', rfl⟩ : ∃ r', r = r' + 1 := ⟨r - 1, by omega⟩
    simp only [Nat.add_zero] at hu
    have habs' : ∀ j, j < n → ∃ v, check (i + 1 + j) = .ok (false, v) := by
      intro j hj
      have := habs (j + 1) (by omega)
      have heq : i + (j + 1) = i + 1 + j := by omega
      rwa [heq] at this
    have hready' : ∃ w, check (i + 1 + n) = .ok (true, w) := by
      obtain ⟨w, hw⟩ := hready
      have heq : i + (n + 1) = i + 1 + n := by omega
      exact ⟨w, by rwa [heq] at hw⟩
    have := ih (i + 1) r' u habs' hready' (by omega)
    simp [forkReadyLoop, hu, this]

/-- The tail pipeline always begins by cloning the fork, whatever the
outcome of the clone. -/
theorem pipelineAfterFork_head (cfg : Config) (env : TpEnv) (t : JiraTicket)
    (owner repo forkURL : String) :
    ∃ tl, (pipelineAfterFork cfg env t owner repo forkURL).2 =
      .cloneRepository forkURL (cfg.tempDir ++ "/" ++ t.key) :: tl := by
  unfold pipelineAfterFork callStep
  cases env.clone <;> simp

/-- Shape of `ProcessTicket` in the create-and-poll scenario: the ticket
fetch, mapping lookup and URL parse succeed, the initial existence check
reports the fork absent, and fork creation succeeds. -/
theorem processTicket_fork_shape (cfg : Config) (env : TpEnv) (t : JiraTicket)
    (firstComponent : String) (comps : List String) (repoURL owner repo uf u0 : String)
    (h1 : env.getTicket = .ok t)
    (h2 : t.components = firstComponent :: comps)
    (h3 : cfg.componentToRepo.lookup firstComponent = some repoURL)
    (h4 : repoURL ≠ "")
    (h5 : ExtractRepoInfo repoURL = .ok (owner, repo))
    (h6 : env.checkForkInitial = .ok (false, uf))
    (h7 : env.forkRepo = .ok u0) :
    ProcessTicket cfg env =
      (let L := forkReadyLoop env.checkForkPoll 0 10 false u0
       if L.1 then
         let next := pipelineAfterFork cfg env t owner repo L.2.1
         (next.1, .getTicket :: .updateTicketStatus cfg.statusInProgress ::
           .checkForkExists :: .forkRepository :: (L.2.2 ++ next.2))
       else
         (.error "fork failed to become ready after multiple attempts",
           .getTicket :: .updateTicketStatus cfg.statusInProgress ::
             .checkForkExists :: .forkRepository ::
             (L.2.2 ++ handleFailureTrace cfg "Fork failed to become ready after multiple attempts"))) := by
  simp only [ProcessTicket, callStep, bestEffortStep, forkPhase, h1, h2, h3, h4, h5, h6, h7,
    if_neg (by simp : ¬ ((false, uf).1 = true))]
  by_cases hL : (forkReadyLoop env.checkForkPoll 0 10 false u0).1 = true <;>
    simp [hL, h4]

/-- C3 (amended): in the create-and-poll scenario, (a) if the poll reports
the fork absent for `N < 10` post-creation calls and present on the next
call, the pipeline proceeds past the fork step (a clone is attempted);
(b) if the poll always reports the fork absent, `ProcessTicket` fails with
the fork-readiness error after exactly 10 post-creation existence checks —
11 existence checks in total, counting the initial pre-creation check —
with a 5-second sleep after every unsuccessful poll. -/
theorem c3_fork_poll_amended (cfg : Config) (env : TpEnv) (t : JiraTicket)
    (firstComponent : String) (comps : List String) (repoURL owner repo uf u0 : String)
    (h1 : env.getTicket = .ok t)
    (h2 : t.components = firstComponent :: comps)
    (h3 : cfg.componentToRepo.lookup firstComponent = some repoURL)
    (h4 : repoURL ≠ "")
    (h5 : ExtractRepoInfo repoURL = .ok (owner, repo))
    (h6 : env.checkForkInitial = .ok (false, uf))
    (h7 : env.forkRepo = .ok u0) :
    (∀ N, N < 10 →
      (∀ j, j < N → ∃ u, env.checkForkPoll j = .ok (false, u)) →
      (∃ w, env.checkForkPoll N = .ok (true, w)) →
      ∃ u d, TpEffect.cloneRepository u d ∈ (ProcessTicket cfg env).2)
    ∧ ((∀ j, ∃ u, env.checkForkPoll j = .ok (false, u)) →
      (ProcessTicket cfg env).1 = .error "fork failed to become ready after multiple attempts" ∧
      (ProcessTicket cfg env).2 =
        [.getTicket, .updateTicketStatus cfg.statusInProgress, .checkForkExists, .forkRepository]
          ++ List.flatten (List.replicate 10 [.checkForkExists, .sleepSeconds 5])
          ++ handleFailureTrace cfg "Fork failed to become ready after multiple attempts") := by
  have hshape := processTicket_fork_shape cfg env t firstComponent comps repoURL owner repo uf u0
    h1 h2 h3 h4 h5 h6 h7
  constructor
  · intro N hN habs hready
    have habs' : ∀ j, j < N → ∃ u, env.checkForkPoll (0 + j) = .ok (false, u) := by
      intro j hj; simpa using habs j hj
    have hready' : ∃ w, env.checkForkPoll (0 + N) = .ok (true, w) := by
      simpa using hready
    have hL : (forkReadyLoop env.checkForkPoll 0 10 false u0).1 = true :=
      forkReadyLoop_ready env.checkForkPoll N 0 10 u0 habs' hready' hN
    rw [hshape]
    simp only [hL, if_true]
    obtain ⟨tl, htl⟩ := pipelineAfterFork_head cfg env t owner repo
      (forkReadyLoop env.checkForkPoll 0 10 false u0).2.1
    refine ⟨(forkReadyLoop env.checkForkPoll 0 10 false u0).2.1,
      cfg.tempDir ++ "/" ++ t.key, ?_⟩
    simp [htl]
  · intro hnever
    have hL := forkReadyLoop_never env.checkForkPoll hnever 10 0 u0
    rw [hshape]
    simp only [hL.1, if_neg (by simp : ¬ (false = true))]
    simp [hL.2]

/-- C3 witness ticket. -/
def ticketC3 : JiraTicket :=
  { key := "TEST-123", summary := "Test ticket", description := "D"
    components := ["comp"], comments := none }

/-- C3 never-ready environment: the fork is absent before creation and on
every post-creation poll. -/
def envC3never : TpEnv :=
  { getTicket := .ok ticketC3
    checkForkInitial := .ok (false, "")
    checkForkPoll := fun _ => .ok (false, "")
    forkRepo := .ok "https://github.com/test-bot/repo.git"
    clone := .ok ()
    switchTarget := .ok ()
    createBranch := .ok ()
    generateCode := .ok ""
    commit := .ok ()
    push := .ok ()
    createPR := .ok "https://github.com/example/repo/pull/1" }

/-- C3 witness: the amended theorem applied to the concrete never-ready
environment — the pipeline fails with the fork-readiness error and its
trace is the four leading steps, ten check/sleep poll rounds, and the
failure report. -/
theorem c3_fork_poll_amended_witness :
    (ProcessTicket cfgW envC3never).1 =
      .error "fork failed to become ready after multiple attempts" ∧
    (ProcessTicket cfgW envC3never).2 =
      [.getTicket, .updateTicketStatus cfgW.statusInProgress, .checkForkExists, .forkRepository]
        ++ List.flatten (List.replicate 10 [.checkForkExists, .sleepSeconds 5])
        ++ handleFailureTrace cfgW "Fork failed to become ready after multiple attempts" :=
  (c3_fork_poll_amended cfgW envC3never ticketC3 "comp" [] "https://github.com/example/repo.git"
    "example" "repo" "" "https://github.com/test-bot/repo.git"
    rfl rfl rfl (by decide) rfl rfl rfl).2 (fun _ => ⟨"", rfl⟩)

/-- C3 counterexample: the claim as stated is false.  In the never-ready
scenario `ProcessTicket` performs 11 `CheckForkExists` calls — the initial
pre-creation check plus the 10 poll iterations — not "no more than 10
existence checks". -/
theorem c3_counterexample :
    (ProcessTicket cfgW envC3never).1 =
      .error "fork failed to become ready after multiple attempts" ∧
    countForkChecks (ProcessTicket cfgW envC3never).2 = 11 ∧
    ¬ countForkChecks (ProcessTicket cfgW envC3never).2 ≤ 10 :=
  ⟨rfl, rfl, by decide⟩

/-! ### PR review processor (`services/pr_review_processor.go`)

The GitHub data shapes below carry exactly the fields the processor reads
(`models.GitHubReview` is from `models/github.go`; the PR-details and
PR-comment shapes are reconstructed from their usage sites in
`pr_review_processor.go`: `User.Login`, `Body`, `State`, `SubmittedAt`,
`CreatedAt`, `Path`, `Line`, `Title`, `HTMLURL`, `Number`, `Files`,
`Head.Ref`, `Head.Repo.CloneURL`).

The watermark-marker extraction (`regexp` match of
`🤖 AI Processing Timestamp: (\d{4}-\d{2}-\d{2}T\d{2}:\d{2}:\d{2}Z)`
followed by `time.Parse(time.RFC3339, ...)`) is abstracted as a function
`parseMarker : String → Option Int`: `some t` when the body contains a
marker whose timestamp parses to instant `t`, `none` otherwise.  Note that
Go accepts the year 0000 in RFC3339, so a parseable marker may denote an
instant before the `time.Time` zero value, i.e. a negative `t`.
-/

structure GitHubReview where
  login : String
  body : String
  state : String
  submittedAt : Int
deriving Repr, DecidableEq

structure GitHubPRComment where
  login : String
  body : String
  createdAt : Int
  path : String
  line : Int
deriving Repr, DecidableEq

structure GitHubPRFile where
  filename : String
  status : String
  additions : Int
  deletions : Int
  patch : String
deriving Repr, DecidableEq

structure GitHubPRDetails where
  title : String
  body : String
  htmlURL : String
  number : Nat
  reviews : List GitHubReview
  comments : List GitHubPRComment
  files : List GitHubPRFile
  headRef : String
  headRepoCloneURL : String
deriving Repr, DecidableEq

/-- ASCII lowering; models Go `strings.ToLower` on the ASCII review-state
strings the processor compares. -/
def goToLower (s : String) : String :=
  ⟨s.data.map fun c => if 'A' ≤ c ∧ c ≤ 'Z' then Char.ofNat (c.toNat + 32) else c⟩

/-- Translation of `hasRequestChangesReviews` (pr_review_processor.go lines
194-202): the loop with early `return true` is an `any`. -/
def hasRequestChangesReviews (reviews : List GitHubReview) : Bool :=
  reviews.any fun r => goToLower r.state == "changes_requested"

/-- Translation of `filterReviewsByTimestamp` (lines 388-407): skip
bot-authored reviews, skip reviews not strictly after the watermark. -/
def filterReviewsByTimestamp (bot : String) (reviews : List GitHubReview)
    (lastProcessedTime : Int) : List GitHubReview :=
  match reviews with
  | [] => []
  | r :: rest =>
    if r.login == bot then filterReviewsByTimestamp bot rest lastProcessedTime
    else if ¬ lastProcessedTime < r.submittedAt then
      filterReviewsByTimestamp bot rest lastProcessedTime
    else r :: filterReviewsByTimestamp bot rest lastProcessedTime

/-- Translation of `filterCommentsByTimestamp` (lines 409-428). -/
def filterCommentsByTimestamp (bot : String) (comments : List GitHubPRComment)
    (lastProcessedTime : Int) : List GitHubPRComment :=
  match comments with
  | [] => []
  | c :: rest =>
    if c.login == bot then filterCommentsByTimestamp bot rest lastProcessedTime
    else if ¬ lastProcessedTime < c.createdAt then
      filterCommentsByTimestamp bot rest lastProcessedTime
    else c :: filterCommentsByTimestamp bot rest lastProcessedTime

/-- Translation of `getLastProcessingTimestamp` (lines 353-376): fold over
the PR comments starting from the zero time, taking a parsed marker only
from bot-authored comments and only when it is strictly after the running
maximum. -/
def markerStep (parseMarker : String → Option Int) (bot : String) (latest : Int)
    (c : GitHubPRComment) : Int :=
  if c.login == bot then
    match parseMarker c.body with
    | some ts => if latest < ts then ts else latest
    | none => latest
  else latest

def getLastProcessingTimestamp (parseMarker : String → Option Int) (bot : String)
    (comments : List GitHubPRComment) : Int :=
  List.foldl (markerStep parseMarker bot) 0 comments

/-- The multiset of parsed marker timestamps of bot-authored comments; used
to state what `getLastProcessingTimestamp` computes. -/
def botMarkers (parseMarker : String → Option Int) (bot : String)
    (comments : List GitHubPRComment) : List Int :=
  comments.filterMap fun c => if c.login == bot then parseMarker c.body else none

/-- The rendered block of one non-bot review inside the feedback digest,
tag NEW when strictly after the watermark, HANDLED otherwise
(`collectFeedback`, lines 213-227). -/
def reviewBlockStr (lastProcessedTime : Int) (r : GitHubReview) : String :=
  "**Review by " ++ r.login ++ " (" ++ r.state ++ ") - "
  ++ (if lastProcessedTime < r.submittedAt then "🔄 NEW" else "✅ HANDLED")
  ++ ":**\n" ++ r.body ++ "\n\n"

/-- The contribution of one review to the digest: bot reviews are skipped. -/
def reviewEntry (bot : String) (lastProcessedTime : Int) (r : GitHubReview) : String :=
  if r.login == bot then "" else reviewBlockStr lastProcessedTime r

def renderReviews (bot : String) (lastProcessedTime : Int) : List GitHubReview → String
  | [] => ""
  | r :: rest => reviewEntry bot lastProcessedTime r ++ renderReviews bot lastProcessedTime rest

/-- The rendered block of one non-bot comment inside the feedback digest
(`collectFeedback`, lines 231-247). -/
def commentBlockStr (lastProcessedTime : Int) (c : GitHubPRComment) : String :=
  "**Comment by " ++ c.login ++ " on " ++ c.path ++ ":" ++ toString c.line ++ " - "
  ++ (if lastProcessedTime < c.createdAt then "🔄 NEW" else "✅ HANDLED")
  ++ ":**\n" ++ c.body ++ "\n\n"

def commentEntry (bot : String) (lastProcessedTime : Int) (c : GitHubPRComment) : String :=
  if c.login == bot then "" else commentBlockStr lastProcessedTime c

def renderPRComments (bot : String) (lastProcessedTime : Int) : List GitHubPRComment → String
  | [] => ""
  | c :: rest => commentEntry bot lastProcessedTime c ++ renderPRComments bot lastProcessedTime rest

/-- Translation of `collectFeedback` (lines 204-251): the section headers
appear whenever the unfiltered lists are nonempty; bot-authored items are
skipped inside the loops. -/
def collectFeedback (bot : String) (reviews : List GitHubReview)
    (comments : List GitHubPRComment) (lastProcessedTime : Int) : String :=
  "## PR Review Feedback\n\n"
  ++ (if reviews.isEmpty then "" else "### Reviews\n\n" ++ renderReviews bot lastProcessedTime reviews)
  ++ (if comments.isEmpty then ""
      else "### Comments\n\n" ++ renderPRComments bot lastProcessedTime comments)

/-- Drop an expected literal prefix from a character list. -/
def dropLit : List Char → List Char → Option (List Char)
  | [], l => some l
  | _ :: _, [] => none
  | a :: ps, b :: ls => if a == b then dropLit ps ls else none

/-- Decimal value of a digit run (the `Sscanf("%d")` of the matched group;
a nonempty digit run always parses). -/
def digitsVal (l : List Char) : Nat :=
  l.foldl (fun acc c => acc * 10 + (c.toNat - 48)) 0

/-- Try to match the PR-URL pattern
`https://github\.com/([^/]+)/([^/]+)/pull/(\d+)` at the head of the list.
Both `[^/]+` groups are necessarily the maximal slash-free runs (a shorter
run cannot be followed by the required literal), and `\d+` is the maximal
digit run (greedy, nothing follows), so the match at a position is
deterministic. -/
def matchPRAt (l : List Char) : Option (String × String × Nat) :=
  match dropLit "https://github.com/".data l with
  | none => none
  | some rest =>
    let own := rest.takeWhile fun c => !(c == '/')
    let rest1 := rest.dropWhile fun c => !(c == '/')
    if own.isEmpty then none
    else
      match rest1 with
      | '/' :: rest2 =>
        let rep := rest2.takeWhile fun c => !(c == '/')
        let rest3 := rest2.dropWhile fun c => !(c == '/')
        if rep.isEmpty then none
        else
          match dropLit "/pull/".data rest3 with
          | none => none
          | some rest4 =>
            let digits := rest4.takeWhile fun c => c.isDigit
            if digits.isEmpty then none
            else some (⟨own⟩, ⟨rep⟩, digitsVal digits)
      | _ => none

/-- `FindStringSubmatch`: scan start positions left to right. -/
def findPRMatch : List Char → Option (String × String × Nat)
  | [] => none
  | c :: rest =>
    match matchPRAt (c :: rest) with
    | some r => some r
    | none => findPRMatch rest

/-- Translation of `extractPRInfoFromURL` (lines 175-192). -/
def extractPRInfoFromURL (prURL : String) : Except String (String × String × Nat) :=
  match findPRMatch prURL.data with
  | some r => .ok r
  | none => .error ("invalid GitHub PR URL format: " ++ prURL)

/-- One file entry of the feedback prompt (`generateFeedbackPrompt`,
lines 326-333). -/
def fileEntry (f : GitHubPRFile) : String :=
  "- " ++ f.filename ++ " (" ++ f.status ++ "): +" ++ toString f.additions
  ++ " -" ++ toString f.deletions ++ "\n"
  ++ (if f.patch == "" then "" else "```diff\n" ++ f.patch ++ "\n```\n")

def renderFiles : List GitHubPRFile → String
  | [] => ""
  | f :: rest => fileEntry f ++ renderFiles rest

/-- Translation of `generateFeedbackPrompt` (lines 315-351). -/
def generateFeedbackPrompt (pr : GitHubPRDetails) (feedback : String) : String :=
  "You are a code reviewer and developer. You need to fix the code based on the following PR review feedback.\n\n"
  ++ "## Original PR Information\n"
  ++ "**Title:** " ++ pr.title ++ "\n"
  ++ "**Description:** " ++ pr.body ++ "\n"
  ++ "**PR URL:** " ++ pr.htmlURL ++ "\n\n"
  ++ "## Changed Files\n" ++ renderFiles pr.files ++ "\n"
  ++ "## Review Feedback\n" ++ feedback ++ "\n"
  ++ "## Instructions\n"
  ++ "1. Analyze the feedback carefully\n"
  ++ "2. Understand what changes are being requested\n"
  ++ "3. Apply the necessary fixes to the code\n"
  ++ "4. Ensure the code quality is improved based on the feedback\n"
  ++ "5. Make sure all requested changes are addressed\n"
  ++ "6. Test your changes to ensure they work correctly\n\n"
  ++ "Please apply the feedback and fix the code accordingly."

inductive FbEffect where
  | getTicket : FbEffect
  | resolvePRURL : FbEffect
  | getPRDetails : FbEffect
  | listPRComments : FbEffect
  | cloneRepository : String → String → FbEffect
  | switchToBranch : String → FbEffect
  | pullChanges : String → FbEffect
  | generateCode : String → FbEffect
  | commitChanges : String → FbEffect
  | pushChanges : String → FbEffect
  | addPRComment : FbEffect
deriving Repr, DecidableEq

/-- Environment of one `ProcessPRReviewFeedback` run.  `prURL` is the
outcome of `getPRURLFromTicket` (field-name resolution, expanded-fields
fetch and shape decoding, all external); the empty string means the field
is absent, which the code treats as "nothing to do". -/
structure FbEnv where
  getTicket : Except String JiraTicket
  prURL : Except String String
  prDetails : Except String GitHubPRDetails
  listPRComments : Except String (List GitHubPRComment)
  clone : Except String Unit
  switchBranch : Except String Unit
  pull : Except String Unit
  generateCode : Except String String
  commit : Except String Unit
  push : Except String Unit
  addPRComment : Except String Unit

/-- A step of `applyFeedbackFixes`: record the call, wrap the error. -/
def fbStep {α : Type} (eff : FbEffect) (r : Except String α) (wrapPre : String)
    (k : α → Except String Unit × List FbEffect) : Except String Unit × List FbEffect :=
  match r with
  | .error e => (.error (wrapPre ++ e), [eff])
  | .ok a =>
    let next := k a
    (next.1, eff :: next.2)

/-- Translation of `applyFeedbackFixes` (lines 265-313): clone the fork,
switch to the existing PR head branch, pull, generate fixes against the
feedback prompt, commit, push to the same branch. -/
def applyFeedbackFixes (cfg : Config) (env : FbEnv) (ticketKey forkURL : String)
    (pr : GitHubPRDetails) (feedback : String) : Except String Unit × List FbEffect :=
  let repoDir := cfg.tempDir ++ "/" ++ ticketKey ++ "-feedback"
  fbStep (.cloneRepository forkURL repoDir) env.clone "failed to clone repository: " fun _ =>
  fbStep (.switchToBranch pr.headRef) env.switchBranch "failed to switch to PR branch: " fun _ =>
  fbStep (.pullChanges pr.headRef) env.pull "failed to pull latest changes: " fun _ =>
  fbStep (.generateCode (generateFeedbackPrompt pr feedback)) env.generateCode
    "failed to generate code fixes: " fun _ =>
  fbStep (.commitChanges (ticketKey ++ ": Apply PR feedback fixes")) env.commit
    "failed to commit changes: " fun _ =>
  fbStep (.pushChanges pr.headRef) env.push "failed to push changes: " fun _ =>
  (.ok (), [])

/-- The watermark `ProcessPRReviewFeedback` computes: zero when listing the
PR comments fails (the code logs and continues with `time.Time{}`),
otherwise the scan of the bot marker comments. -/
def watermarkOf (parseMarker : String → Option Int) (bot : String) (env : FbEnv) : Int :=
  match env.listPRComments with
  | .error _ => 0
  | .ok cs => getLastProcessingTimestamp parseMarker bot cs

/-- Translation of `ProcessPRReviewFeedback` (lines 46-128). -/
def ProcessPRReviewFeedback (cfg : Config) (parseMarker : String → Option Int)
    (env : FbEnv) (ticketKey : String) : Except String Unit × List FbEffect :=
  match env.getTicket with
  | .error e => (.error e, [.getTicket])
  | .ok _ =>
    match env.prURL with
    | .error e => (.error e, [.getTicket, .resolvePRURL])
    | .ok prURL =>
      if prURL = "" then (.ok (), [.getTicket, .resolvePRURL])
      else
        match extractPRInfoFromURL prURL with
        | .error e => (.error e, [.getTicket, .resolvePRURL])
        | .ok _ =>
          match env.prDetails with
          | .error e => (.error e, [.getTicket, .resolvePRURL, .getPRDetails])
          | .ok pr =>
            let lastProcessedTime := watermarkOf parseMarker cfg.botUsername env
            let filteredReviews :=
              filterReviewsByTimestamp cfg.botUsername pr.reviews lastProcessedTime
            let filteredComments :=
              filterCommentsByTimestamp cfg.botUsername pr.comments lastProcessedTime
            if hasRequestChangesReviews filteredReviews = false ∧ filteredComments = [] then
              (.ok (), [.getTicket, .resolvePRURL, .getPRDetails, .listPRComments])
            else
              let feedback :=
                collectFeedback cfg.botUsername pr.reviews pr.comments lastProcessedTime
              if pr.headRepoCloneURL = "" then
                (.error "no clone URL found in PR head repository",
                  [.getTicket, .resolvePRURL, .getPRDetails, .listPRComments])
              else
                let fix := applyFeedbackFixes cfg env ticketKey pr.headRepoCloneURL pr feedback
                match fix.1 with
                | .error e =>
                  (.error e, [.getTicket, .resolvePRURL, .getPRDetails, .listPRComments] ++ fix.2)
                | .ok _ =>
                  (.ok (),
                    [.getTicket, .resolvePRURL, .getPRDetails, .listPRComments]
                      ++ fix.2 ++ [.addPRComment])

/-- C4 (confirmed): for every PR whose filtered (non-bot, post-watermark)
set contains no changes-requested review (the code compares review states
case-insensitively) and no comment, `ProcessPRReviewFeedback` returns nil,
and the only external calls performed are the ticket fetch, the PR-URL
resolution, the PR-details fetch, and the comment listing — no clone,
code generation, commit, push, or watermark comment. -/
theorem c4_no_new_feedback (cfg : Config) (parseMarker : String → Option Int)
    (env : FbEnv) (ticketKey : String) (t : JiraTicket) (u : String)
    (pr : GitHubPRDetails)
    (h1 : env.getTicket = .ok t)
    (h2 : env.prURL = .ok u)
    (h3 : u ≠ "")
    (h4 : ∃ o r n, extractPRInfoFromURL u = .ok (o, r, n))
    (h5 : env.prDetails = .ok pr)
    (hrev : hasRequestChangesReviews
      (filterReviewsByTimestamp cfg.botUsername pr.reviews
        (watermarkOf parseMarker cfg.botUsername env)) = false)
    (hcom : filterCommentsByTimestamp cfg.botUsername pr.comments
      (watermarkOf parseMarker cfg.botUsername env) = []) :
    (ProcessPRReviewFeedback cfg parseMarker env ticketKey).1 = .ok () ∧
    (ProcessPRReviewFeedback cfg parseMarker env ticketKey).2 =
      [.getTicket, .resolvePRURL, .getPRDetails, .listPRComments] := by
  obtain ⟨o, r, n, h4⟩ := h4
  simp [ProcessPRReviewFeedback, h1, h2, h3, h4, h5, hrev, hcom]

/-- C4 witness inputs: a PR with no reviews and no comments. -/
def prW : GitHubPRDetails :=
  { title := "TEST-123: Test ticket", body := "B"
    htmlURL := "https://github.com/example/repo/pull/7", number := 7
    reviews := [], comments := [], files := []
    headRef := "TEST-123", headRepoCloneURL := "https://github.com/test-bot/repo.git" }

def envC4 : FbEnv :=
  { getTicket := .ok ticketC3
    prURL := .ok "https://github.com/example/repo/pull/7"
    prDetails := .ok prW
    listPRComments := .ok []
    clone := .ok ()
    switchBranch := .ok ()
    pull := .ok ()
    generateCode := .ok ""
    commit := .ok ()
    push := .ok ()
    addPRComment := .ok () }

/-- The trivial marker parse: no comment body carries a marker. -/
def pmNone : String → Option Int := fun _ => none

/-- C4 witness: at the concrete quiet PR the run stops after the four read
calls. -/
theorem c4_no_new_feedback_witness :
    (ProcessPRReviewFeedback cfgW pmNone envC4 "TEST-123").1 = .ok () ∧
    (ProcessPRReviewFeedback cfgW pmNone envC4 "TEST-123").2 =
      [.getTicket, .resolvePRURL, .getPRDetails, .listPRComments] :=
  c4_no_new_feedback cfgW pmNone envC4 "TEST-123" ticketC3
    "https://github.com/example/repo/pull/7" prW rfl rfl (by decide)
    ⟨"example", "repo", 7, rfl⟩ rfl rfl rfl

/-- `filterReviewsByTimestamp` is the list filter retaining non-bot reviews
strictly after the watermark. -/
theorem filterReviews_eq (bot : String) (lastProcessedTime : Int) :
    ∀ reviews : List GitHubReview,
      filterReviewsByTimestamp bot reviews lastProcessedTime =
        reviews.filter fun r => !(r.login == bot) && decide (lastProcessedTime < r.submittedAt) := by
  intro reviews
  induction reviews with
  | nil => rfl
  | cons x rest ih =>
    simp only [filterReviewsByTimestamp, List.filter_cons]
    by_cases hb : (x.login == bot) = true
    · simp [hb, ih]
    · by_cases ht : lastProcessedTime < x.submittedAt
      · simp [hb, ht, ih]
      · simp [hb, ht, ih]

/-- `filterCommentsByTimestamp` is the list filter retaining non-bot
comments strictly after the watermark. -/
theorem filterComments_eq (bot : String) (lastProcessedTime : Int) :
    ∀ comments : List GitHubPRComment,
      filterCommentsByTimestamp bot comments lastProcessedTime =
        comments.filter fun c => !(c.login == bot) && decide (lastProcessedTime < c.createdAt) := by
  intro comments
  induction comments with
  | nil => rfl
  | cons x rest ih =>
    simp only [filterCommentsByTimestamp, List.filter_cons]
    by_cases hb : (x.login == bot) = true
    · simp [hb, ih]
    · by_cases ht : lastProcessedTime < x.createdAt
      · simp [hb, ht, ih]
      · simp [hb, ht, ih]

/-- C5 (confirmed): a review (resp. comment) appears in the filtered set
computed by `filterReviewsByTimestamp` (resp. `filterCommentsByTimestamp`)
if and only if it is in the input list, its author differs from the bot
username, and its timestamp is strictly after the watermark; in particular
every bot-authored item is excluded regardless of its timestamp. -/
theorem c5_filter_membership (bot : String) (lastProcessedTime : Int)
    (reviews : List GitHubReview) (comments : List GitHubPRComment)
    (r : GitHubReview) (c : GitHubPRComment) :
    (r ∈ filterReviewsByTimestamp bot reviews lastProcessedTime ↔
      r ∈ reviews ∧ r.login ≠ bot ∧ lastProcessedTime < r.submittedAt) ∧
    (c ∈ filterCommentsByTimestamp bot comments lastProcessedTime ↔
      c ∈ comments ∧ c.login ≠ bot ∧ lastProcessedTime < c.createdAt) := by
  rw [filterReviews_eq, filterComments_eq]
  constructor <;> · rw [List.mem_filter]; simp

/-- Invariant of the watermark fold: the result dominates every bot marker,
dominates the accumulator, and is either the accumulator or one of the
markers. -/
theorem markerFold_spec (pm : String → Option Int) (bot : String) :
    ∀ (cs : List GitHubPRComment) (acc : Int),
      (∀ t ∈ botMarkers pm bot cs, t ≤ List.foldl (markerStep pm bot) acc cs) ∧
      acc ≤ List.foldl (markerStep pm bot) acc cs ∧
      (List.foldl (markerStep pm bot) acc cs = acc ∨
        List.foldl (markerStep pm bot) acc cs ∈ botMarkers pm bot cs) := by
  intro cs
  induction cs with
  | nil =>
    intro acc
    refine ⟨?_, le_refl _, Or.inl rfl⟩
    intro t ht
    simp [botMarkers] at ht
  | cons c rest ih =>
    intro acc
    rw [List.foldl_cons]
    by_cases hb : (c.login == bot) = true
    · cases hm : pm c.body with
      | none =>
        have hb2 : c.login = bot := by simpa using hb
        have hstep : markerStep pm bot acc c = acc := by simp [markerStep, hb, hm]
        have hmk : botMarkers pm bot (c :: rest) = botMarkers pm bot rest := by
          simp [botMarkers, List.filterMap_cons, hb2, hm]
        rw [hstep, hmk]
        exact ih acc
      | some ts =>
        have hb2 : c.login = bot := by simpa using hb
        have hmk : botMarkers pm bot (c :: rest) = ts :: botMarkers pm bot rest := by
          simp [botMarkers, List.filterMap_cons, hb2, hm]
        obtain ⟨ih1, ih2, ih3⟩ := ih (markerStep pm bot acc c)
        have hts : ts ≤ markerStep pm bot acc c := by
          simp only [markerStep, hb, hm, if_true]
          split <;> omega
        have hacc : acc ≤ markerStep pm bot acc c := by
          simp only [markerStep, hb, hm, if_true]
          split <;> omega
        rw [hmk]
        refine ⟨?_, le_trans hacc ih2, ?_⟩
        · intro t ht
          rcases List.mem_cons.mp ht with h | h
          · exact h ▸ le_trans hts ih2
          · exact ih1 t h
        · rcases ih3 with h | h
          · rw [h]
            by_cases hlt : acc < ts
            · refine Or.inr ?_
              have hstep : markerStep pm bot acc c = ts := by
                simp [markerStep, hb, hm, hlt]
              rw [hstep]
              exact List.mem_cons_self _ _
            · refine Or.inl ?_
              simp [markerStep, hb, hm, hlt]
          · exact Or.inr (List.mem_cons_of_mem _ h)
    · have hb2 : ¬ c.login = bot := by simpa using hb
      have hstep : markerStep pm bot acc c = acc := by simp [markerStep, hb]
      have hmk : botMarkers pm bot (c :: rest) = botMarkers pm bot rest := by
        simp [botMarkers, List.filterMap_cons, hb2]
      rw [hstep, hmk]
      exact ih acc

/-- C6 (amended): `getLastProcessingTimestamp` returns the maximum of the
zero time and the marker timestamps parsed from bot-authored comments: the
result dominates every parsed bot marker, is never below the zero time, is
either the zero time or one of the markers, and is the zero time when no
bot comment carries a parseable marker.  (Equivalently, it is the maximum
parsed bot marker whenever some marker parses to an instant at or after
the zero time.) -/
theorem c6_watermark_amended (pm : String → Option Int) (bot : String)
    (comments : List GitHubPRComment) :
    (∀ t ∈ botMarkers pm bot comments, t ≤ getLastProcessingTimestamp pm bot comments) ∧
    0 ≤ getLastProcessingTimestamp pm bot comments ∧
    (getLastProcessingTimestamp pm bot comments = 0 ∨
      getLastProcessingTimestamp pm bot comments ∈ botMarkers pm bot comments) ∧
    (botMarkers pm bot comments = [] → getLastProcessingTimestamp pm bot comments = 0) := by
  have h := markerFold_spec pm bot comments 0
  unfold getLastProcessingTimestamp
  refine ⟨h.1, h.2.1, h.2.2, ?_⟩
  intro hemp
  rcases h.2.2 with h0 | hmem
  · exact h0
  · rw [hemp] at hmem
    simp at hmem

/-- A marker parse yielding 7 for every body. -/
def pmSeven : String → Option Int := fun _ => some 7

/-- C6 witness: with one bot comment whose marker parses to 7, the
watermark dominates that marker (and indeed equals it). -/
theorem c6_watermark_amended_witness :
    7 ≤ getLastProcessingTimestamp pmSeven "bot"
      [⟨"bot", "🤖 AI Processing Timestamp: 1970-01-01T00:00:07Z", 0, "", 0⟩] :=
  (c6_watermark_amended pmSeven "bot"
    [⟨"bot", "🤖 AI Processing Timestamp: 1970-01-01T00:00:07Z", 0, "", 0⟩]).1 7 (by decide)

/-- A marker parse yielding the instant one second before the Go zero time
for every body: Go `time.Parse(time.RFC3339, "0000-12-31T23:59:59Z")`
succeeds (RFC3339 and Go accept year 0000) and the resulting instant lies
one second before `time.Time{}` (0001-01-01T00:00:00Z). -/
def pmNegOne : String → Option Int := fun _ => some (-1)

/-- C6 counterexample: the claim as stated is false.  A single bot comment
whose marker parses (to the pre-zero instant −1) makes the parsed-marker
set `[-1]`, whose maximum is −1; yet `getLastProcessingTimestamp` returns
the zero time 0, because the fold only moves forward from the zero time —
it does not return "the maximum timestamp parsed". -/
theorem c6_counterexample :
    botMarkers pmNegOne "bot"
      [⟨"bot", "🤖 AI Processing Timestamp: 0000-12-31T23:59:59Z", 0, "", 0⟩] = [-1] ∧
    getLastProcessingTimestamp pmNegOne "bot"
      [⟨"bot", "🤖 AI Processing Timestamp: 0000-12-31T23:59:59Z", 0, "", 0⟩] = 0 ∧
    ¬ getLastProcessingTimestamp pmNegOne "bot"
      [⟨"bot", "🤖 AI Processing Timestamp: 0000-12-31T23:59:59Z", 0, "", 0⟩] = -1 :=
  ⟨rfl, rfl, by decide⟩

/-! ### Digest containment (claim C7) -/

theorem strData_append (s t : String) : (s ++ t).data = s.data ++ t.data := by
  cases s; cases t; rfl

/-- `pat` occurs contiguously inside `s`. -/
def containsStr (s pat : String) : Prop :=
  ∃ a b : List Char, s.data = a ++ pat.data ++ b

theorem containsStr_self (s : String) : containsStr s s :=
  ⟨[], [], by simp⟩

theorem containsStr_appL (t s pat : String) (h : containsStr s pat) :
    containsStr (t ++ s) pat := by
  obtain ⟨a, b, hh⟩ := h
  exact ⟨t.data ++ a, b, by rw [strData_append, hh]; simp⟩

theorem containsStr_appR (s t pat : String) (h : containsStr s pat) :
    containsStr (s ++ t) pat := by
  obtain ⟨a, b, hh⟩ := h
  exact ⟨a, b ++ t.data, by rw [strData_append, hh]; simp⟩

theorem not_containsStr_of_lt (s pat : String)
    (h : s.data.length < pat.data.length) : ¬ containsStr s pat := by
  rintro ⟨a, b, hh⟩
  have hlen := congrArg List.length hh
  rw [List.length_append, List.length_append] at hlen
  omega

/-- Every non-bot review contributes its tagged block to the reviews
section. -/
theorem renderReviews_contains (bot : String) (lastProcessedTime : Int) :
    ∀ (reviews : List GitHubReview) (r : GitHubReview),
      r ∈ reviews → ¬ r.login = bot →
      containsStr (renderReviews bot lastProcessedTime reviews)
        (reviewBlockStr lastProcessedTime r) := by
  intro reviews
  induction reviews with
  | nil => intro r h; simp at h
  | cons x rest ih =>
    intro r hmem hbot
    rcases List.mem_cons.mp hmem with h | h
    · subst h
      have hentry : reviewEntry bot lastProcessedTime r = reviewBlockStr lastProcessedTime r := by
        simp [reviewEntry, hbot]
      show containsStr (reviewEntry bot lastProcessedTime r
        ++ renderReviews bot lastProcessedTime rest) _
      rw [hentry]
      exact containsStr_appR _ _ _ (containsStr_self _)
    · show containsStr (reviewEntry bot lastProcessedTime x
        ++ renderReviews bot lastProcessedTime rest) _
      exact containsStr_appL _ _ _ (ih r h hbot)

/-- Every non-bot comment contributes its tagged block to the comments
section. -/
theorem renderPRComments_contains (bot : String) (lastProcessedTime : Int) :
    ∀ (comments : List GitHubPRComment) (c : GitHubPRComment),
      c ∈ comments → ¬ c.login = bot →
      containsStr (renderPRComments bot lastProcessedTime comments)
        (commentBlockStr lastProcessedTime c) := by
  intro comments
  induction comments with
  | nil => intro c h; simp at h
  | cons x rest ih =>
    intro c hmem hbot
    rcases List.mem_cons.mp hmem with h | h
    · subst h
      have hentry : commentEntry bot lastProcessedTime c = commentBlockStr lastProcessedTime c := by
        simp [commentEntry, hbot]
      show containsStr (commentEntry bot lastProcessedTime c
        ++ renderPRComments bot lastProcessedTime rest) _
      rw [hentry]
      exact containsStr_appR _ _ _ (containsStr_self _)
    · show containsStr (commentEntry bot lastProcessedTime x
        ++ renderPRComments bot lastProcessedTime rest) _
      exact containsStr_appL _ _ _ (ih c h hbot)

/-- C7 (amended): the feedback digest contains, for every NON-BOT review
and comment on the PR (new or old), its rendered block tagged "🔄 NEW" when
its timestamp is strictly after the watermark and "✅ HANDLED" otherwise
(the tag is part of `reviewBlockStr`/`commentBlockStr`); bot-authored
reviews and comments are omitted from the digest. -/
theorem c7_digest_amended (bot : String) (lastProcessedTime : Int)
    (reviews : List GitHubReview) (comments : List GitHubPRComment) :
    (∀ r ∈ reviews, r.login ≠ bot →
      containsStr (collectFeedback bot reviews comments lastProcessedTime)
        (reviewBlockStr lastProcessedTime r)) ∧
    (∀ c ∈ comments, c.login ≠ bot →
      containsStr (collectFeedback bot reviews comments lastProcessedTime)
        (commentBlockStr lastProcessedTime c)) := by
  constructor
  · intro r hmem hbot
    have hne : reviews.isEmpty = false := by
      cases reviews
      · simp at hmem
      · rfl
    unfold collectFeedback
    rw [hne]
    simp only [Bool.false_eq_true, if_false]
    exact containsStr_appR _ _ _
      (containsStr_appL _ _ _
        (containsStr_appL _ _ _ (renderReviews_contains bot lastProcessedTime reviews r hmem hbot)))
  · intro c hmem hbot
    have hne : comments.isEmpty = false := by
      cases comments
      · simp at hmem
      · rfl
    unfold collectFeedback
    rw [hne]
    simp only [Bool.false_eq_true, if_false]
    exact containsStr_appL _ _ _
      (containsStr_appL _ _ _ (renderPRComments_contains bot lastProcessedTime comments c hmem hbot))

/-- C7 witness review: authored by a human reviewer. -/
def rAlice : GitHubReview :=
  { login := "alice", body := "please fix the null check", state := "commented", submittedAt := 5 }

/-- C7 witness: the digest for a PR with one non-bot review contains that
review's tagged block. -/
theorem c7_digest_amended_witness :
    containsStr (collectFeedback "bot7" [rAlice] ([] : List GitHubPRComment) 0)
      (reviewBlockStr 0 rAlice) :=
  (c7_digest_amended "bot7" 0 [rAlice] []).1 rAlice (by simp) (by decide)

/-- A bot-authored review whose body is longer than the whole digest that
results from skipping it. -/
def rBot7 : GitHubReview :=
  { login := "bot7"
    body := "0123456789012345678901234567890123456789012345678901234567890123456789"
    state := "approved", submittedAt := 5 }

/-- C7 counterexample: the claim as stated is false.  `collectFeedback`
skips reviews authored by the configured bot username, so the digest for a
PR whose only review is bot-authored does not include that review: its
70-character body cannot occur in the 36-character digest. -/
theorem c7_counterexample :
    rBot7 ∈ [rBot7] ∧
    ¬ containsStr (collectFeedback "bot7" [rBot7] ([] : List GitHubPRComment) 0)
      rBot7.body :=
  ⟨by simp, not_containsStr_of_lt _ _ (by decide)⟩

/-! ### Scanner start/stop (`services/jira_issue_scanner.go` and
`services/pr_feedback_scanner.go`, lines 51-87 of each)

Both scanners share the same `Start`/`Stop` logic over the fields
`isRunning` and `stopChan`; the model below covers both.  `Start` on a
non-running scanner sets `isRunning` and spawns the loop goroutine;
`Stop` on a running scanner clears `isRunning` and closes `stopChan`.  The
channel is created once in the constructor and never reassigned, so it is
modelled by the single flag `stopClosed`; Go `close` on an already-closed
channel is a run-time panic, modelled as `none`.

The loop goroutine first scans once, then selects between the ticker and
the stop channel.  A closed channel is always ready, and the first select
is reached before the first tick of the freshly created ticker
(`IntervalSeconds > 0`), so a loop spawned with the channel already closed
performs exactly its one initial scan and returns without ever consuming a
tick; a loop spawned with the channel open keeps scanning on the ticker.
`loopScanCount` records this: `some n` means the loop performs exactly `n`
scans and terminates, `none` means unbounded periodic scanning. -/

structure ScannerState where
  isRunning : Bool
  stopClosed : Bool
deriving Repr, DecidableEq

def scannerInit : ScannerState := ⟨false, false⟩

inductive ScanOp where
  | start : ScanOp
  | stop : ScanOp
deriving Repr, DecidableEq

inductive SEffect where
  | spawnLoop : Bool → SEffect
  | closeStop : SEffect
deriving Repr, DecidableEq

def loopScanCount (closedAtSpawn : Bool) : Option Nat :=
  if closedAtSpawn then some 1 else none

/-- One `Start` or `Stop` call; `none` is the double-close panic. -/
def stepOp (s : ScannerState) : ScanOp → Option (ScannerState × List SEffect)
  | .start =>
    if s.isRunning then some (s, [])
    else some ({ s with isRunning := true }, [.spawnLoop s.stopClosed])
  | .stop =>
    if ¬ s.isRunning then some (s, [])
    else if s.stopClosed then none
    else some (⟨false, true⟩, [.closeStop])

/-- Run a sequence of `Start`/`Stop` calls, collecting effects; a panic
anywhere aborts the run. -/
def runOps : ScannerState → List ScanOp → Option (ScannerState × List SEffect)
  | s, [] => some (s, [])
  | s, op :: rest =>
    match stepOp s op with
    | none => none
    | some (s2, e) =>
      match runOps s2 rest with
      | none => none
      | some (s3, es) => some (s3, e ++ es)

def countCloses (effs : List SEffect) : Nat :=
  effs.countP fun e => match e with | .closeStop => true | _ => false

theorem runOps_start_noop (s : ScannerState) (rest : List ScanOp)
    (hr : s.isRunning = true) : runOps s (.start :: rest) = runOps s rest := by
  simp only [runOps, stepOp, hr, if_true]
  cases h : runOps s rest with
  | none => rfl
  | some p => obtain ⟨s3, es⟩ := p; simp

theorem runOps_start_spawn (s : ScannerState) (rest : List ScanOp)
    (hr : s.isRunning = false) :
    runOps s (.start :: rest) =
      match runOps { s with isRunning := true } rest with
      | none => none
      | some (s3, es) => some (s3, .spawnLoop s.stopClosed :: es) := by
  simp only [runOps, stepOp, hr, Bool.false_eq_true, if_false]
  cases h : runOps { s with isRunning := true } rest with
  | none => rfl
  | some p => obtain ⟨s3, es⟩ := p; simp

theorem runOps_stop_noop (s : ScannerState) (rest : List ScanOp)
    (hr : s.isRunning = false) : runOps s (.stop :: rest) = runOps s rest := by
  simp only [runOps, stepOp, hr, Bool.false_eq_true, not_false_eq_true, if_true]
  cases h : runOps s rest with
  | none => rfl
  | some p => obtain ⟨s3, es⟩ := p; simp

theorem runOps_stop_panic (s : ScannerState) (rest : List ScanOp)
    (hr : s.isRunning = true) (hc : s.stopClosed = true) :
    runOps s (.stop :: rest) = none := by
  simp [runOps, stepOp, hr, hc]

theorem runOps_stop_close (s : ScannerState) (rest : List ScanOp)
    (hr : s.isRunning = true) (hc : s.stopClosed = false) :
    runOps s (.stop :: rest) =
      match runOps ⟨false, true⟩ rest with
      | none => none
      | some (s3, es) => some (s3, .closeStop :: es) := by
  simp only [runOps, stepOp, hr, hc, not_true_eq_false, Bool.false_eq_true, if_false]
  cases h : runOps (⟨false, true⟩ : ScannerState) rest with
  | none => rfl
  | some p => obtain ⟨s3, es⟩ := p; simp

/-- From a state with the channel closed, a non-panicking run never closes
again, never reopens the channel, and spawns only loops that see the
closed channel. -/
theorem runOps_closed :
    ∀ (ops : List ScanOp) (s s2 : ScannerState) (effs : List SEffect),
      s.stopClosed = true → runOps s ops = some (s2, effs) →
      s2.stopClosed = true ∧ countCloses effs = 0 ∧
      ∀ b, SEffect.spawnLoop b ∈ effs → b = true := by
  intro ops
  induction ops with
  | nil =>
    intro s s2 effs hc hrun
    simp only [runOps, Option.some.injEq, Prod.mk.injEq] at hrun
    obtain ⟨rfl, rfl⟩ := hrun
    exact ⟨hc, rfl, by intro b hb; simp at hb⟩
  | cons op rest ih =>
    intro s s2 effs hc hrun
    cases op with
    | start =>
      by_cases hr : s.isRunning = true
      · rw [runOps_start_noop s rest hr] at hrun
        exact ih s s2 effs hc hrun
      · have hr2 : s.isRunning = false := by simpa using hr
        rw [runOps_start_spawn s rest hr2] at hrun
        cases hrest : runOps { s with isRunning := true } rest with
        | none => rw [hrest] at hrun; simp at hrun
        | some p =>
          obtain ⟨s3, es⟩ := p
          rw [hrest] at hrun
          simp only [Option.some.injEq, Prod.mk.injEq] at hrun
          obtain ⟨rfl, rfl⟩ := hrun
          obtain ⟨h1, h2, h3⟩ := ih { s with isRunning := true } s3 es hc hrest
          refine ⟨h1, ?_, ?_⟩
          · have hcc : countCloses (SEffect.spawnLoop s.stopClosed :: es) = countCloses es := by
              simp [countCloses]
            rw [hcc, h2]
          · intro b hb
            rcases List.mem_cons.mp hb with h | h
            · injection h with h
              rw [h, hc]
            · exact h3 b h
    | stop =>
      by_cases hr : s.isRunning = true
      · rw [runOps_stop_panic s rest hr hc] at hrun
        exact absurd hrun (by simp)
      · have hr2 : s.isRunning = false := by simpa using hr
        rw [runOps_stop_noop s rest hr2] at hrun
        exact ih s s2 effs hc hrun

/-- From a state with the channel open, a non-panicking run closes the
channel at most once. -/
theorem runOps_closes_le_one :
    ∀ (ops : List ScanOp) (s s2 : ScannerState) (effs : List SEffect),
      s.stopClosed = false → runOps s ops = some (s2, effs) →
      countCloses effs ≤ 1 := by
  intro ops
  induction ops with
  | nil =>
    intro s s2 effs hc hrun
    simp only [runOps, Option.some.injEq, Prod.mk.injEq] at hrun
    obtain ⟨rfl, rfl⟩ := hrun
    simp [countCloses]
  | cons op rest ih =>
    intro s s2 effs hc hrun
    cases op with
    | start =>
      by_cases hr : s.isRunning = true
      · rw [runOps_start_noop s rest hr] at hrun
        exact ih s s2 effs hc hrun
      · have hr2 : s.isRunning = false := by simpa using hr
        rw [runOps_start_spawn s rest hr2] at hrun
        cases hrest : runOps { s with isRunning := true } rest with
        | none => rw [hrest] at hrun; simp at hrun
        | some p =>
          obtain ⟨s3, es⟩ := p
          rw [hrest] at hrun
          simp only [Option.some.injEq, Prod.mk.injEq] at hrun
          obtain ⟨rfl, rfl⟩ := hrun
          have hle := ih { s with isRunning := true } s3 es hc hrest
          have hcc : countCloses (SEffect.spawnLoop s.stopClosed :: es) = countCloses es := by
            simp [countCloses]
          rw [hcc]
          exact hle
    | stop =>
      by_cases hr : s.isRunning = true
      · rw [runOps_stop_close s rest hr hc] at hrun
        cases hrest : runOps (⟨false, true⟩ : ScannerState) rest with
        | none => rw [hrest] at hrun; simp at hrun
        | some p =>
          obtain ⟨s3, es⟩ := p
          rw [hrest] at hrun
          simp only [Option.some.injEq, Prod.mk.injEq] at hrun
          obtain ⟨rfl, rfl⟩ := hrun
          have h0 := (runOps_closed rest ⟨false, true⟩ s3 es rfl hrest).2.1
          have hcc : countCloses (SEffect.closeStop :: es) = countCloses es + 1 := by
            simp [countCloses]
          rw [hcc, h0]
      · have hr2 : s.isRunning = false := by simpa using hr
        rw [runOps_stop_noop s rest hr2] at hrun
        exact ih s s2 effs hc hrun

/-- C10 (amended): along any non-panicking sequence of `Start`/`Stop`
calls from the initial state, the stop channel is closed at most once; and
once the channel is closed it is never recreated — every further run keeps
it closed and performs no further close — and every loop spawned
afterwards (by a subsequent `Start`) sees the closed channel, performs
exactly its one immediate scan and terminates instead of running on the
ticker.  (The unqualified "closed exactly once" of the claim fails: a
second `Stop` after a second `Start` attempts a second close, which is a
run-time panic — see the counterexample.) -/
theorem c10_stop_amended (ops : List ScanOp) (s1 : ScannerState) (effs : List SEffect)
    (hrun : runOps scannerInit ops = some (s1, effs)) :
    countCloses effs ≤ 1 ∧
    (s1.stopClosed = true →
      ∀ (ops2 : List ScanOp) (s2 : ScannerState) (effs2 : List SEffect),
        runOps s1 ops2 = some (s2, effs2) →
        countCloses effs2 = 0 ∧ s2.stopClosed = true ∧
        ∀ b, SEffect.spawnLoop b ∈ effs2 → b = true ∧ loopScanCount b = some 1) := by
  constructor
  · exact runOps_closes_le_one ops scannerInit s1 effs rfl hrun
  · intro hc ops2 s2 effs2 hrun2
    obtain ⟨h1, h2, h3⟩ := runOps_closed ops2 s1 s2 effs2 hc hrun2
    refine ⟨h2, h1, ?_⟩
    intro b hb
    have hbt := h3 b hb
    exact ⟨hbt, by rw [hbt]; rfl⟩

/-- C10 witness: after `Start`/`Stop`, a further `Start` spawns a loop that
sees the closed channel and performs exactly one scan, with no further
close. -/
theorem c10_stop_amended_witness :
    countCloses [SEffect.spawnLoop true] = 0 ∧
    (⟨true, true⟩ : ScannerState).stopClosed = true ∧
    ∀ b, SEffect.spawnLoop b ∈ [SEffect.spawnLoop true] →
      b = true ∧ loopScanCount b = some 1 :=
  (c10_stop_amended [.start, .stop] ⟨false, true⟩ [.spawnLoop false, .closeStop] rfl).2
    rfl [.start] ⟨true, true⟩ [.spawnLoop true] rfl

/-- C10 counterexample: the claim as stated ("the stop channel is closed
exactly once") is false.  `Start, Stop, Start` succeeds with one close and
leaves the scanner running on the already-closed channel; the next `Stop`
passes the `isRunning` guard and calls `close` on the already-closed
channel — a Go run-time panic, i.e. a second close attempt, not a no-op. -/
theorem c10_counterexample :
    (∃ s effs, runOps scannerInit [ScanOp.start, ScanOp.stop, ScanOp.start] = some (s, effs) ∧
      countCloses effs = 1 ∧ s.isRunning = true ∧ s.stopClosed = true) ∧
    runOps scannerInit [ScanOp.start, ScanOp.stop, ScanOp.start, ScanOp.stop] = none :=
  ⟨⟨⟨true, true⟩, [.spawnLoop false, .closeStop, .spawnLoop true], rfl, rfl, rfl, rfl⟩, rfl⟩
